import Mathlib

/-!
Service lifecycle of the AIVA backend (`index.js`).

A shallow embedding of the startup routine `startServer`, the two
termination-signal handlers and the `/health` route of `index.js`, as explicit
state passing over a process state that records the chronological trace of the
observable calls the code makes.

The backing services (`./src/services/azure`, `ConfigurationManager`,
`StorageService`, `CacheService`, `DatabaseManager`) are collaborators whose
code is not part of `index.js`; what they do when called is an input of the
model (`Env`), and every theorem quantifies over it.
-/

namespace Back

/-- Error values thrown by (or rejected from) a collaborator. -/
abbrev Err := Nat

/-- The five awaited calls in the `try` block of `startServer`, in source order
(lines 132, 138, 145, 146, 151). -/
inductive StartupStep
  | initializeAzureServices
  | configManagerInitialize
  | storageServiceInitialize
  | storageServiceInitializeContainer
  | cacheServiceInitialize
  deriving DecidableEq, Repr

/-- The order in which `startServer` awaits its startup steps. -/
def startupOrder : List StartupStep :=
  [.initializeAzureServices, .configManagerInitialize, .storageServiceInitialize,
   .storageServiceInitializeContainer, .cacheServiceInitialize]

/-- The two cleanup calls made by a signal handler:
`dbManager.disconnect()` and `cacheService.destroy()`. -/
inductive Cleanup
  | dbManagerDisconnect
  | cacheServiceDestroy
  deriving DecidableEq, Repr

/-- The termination signals for which `index.js` registers a handler. -/
inductive Signal
  | SIGTERM
  | SIGINT
  deriving DecidableEq, Repr

/-- The `logger.info` messages of `startServer` and of the signal handlers. -/
inductive InfoMsg
  | azureInitialized        -- 'Azure services initialized'
  | configInitialized       -- 'Configuration Manager initialized with Key Vault integration'
  | storageReady            -- 'Storage service ready'
  | cacheReady              -- 'Cache service ready'
  | received (s : Signal)   -- '<signal> received, shutting down gracefully'
  deriving DecidableEq, Repr

/-- Observable events, in the order the code produces them. -/
inductive Event
  | invoke (s : StartupStep)      -- the call of a startup step
  | completed (s : StartupStep)   -- its promise resolved and `await` resumed
  | info (m : InfoMsg)            -- `logger.info(m)`
  | listen                        -- `app.listen(PORT, ...)`
  | failedToStart (e : Err)       -- `logger.error('Failed to start server:', e)`
  | exit (code : Nat)             -- `process.exit(code)`
  | cleanup (c : Cleanup)         -- a cleanup call of a signal handler
  | healthy                       -- `res.status(200).json(status: 'healthy', ...)`
  | uncaught (e : Err)            -- an exception escaping a signal handler
  deriving DecidableEq, Repr

/-- How a cleanup call of a signal handler ends. The handlers do not `await`
the call and do not wrap it in `try`. -/
inductive CleanupOutcome
  | ok                  -- returns normally; whatever it started succeeds
  | rejects (e : Err)   -- returns a promise that later rejects with `e`
  | throws (e : Err)    -- throws `e` synchronously
  deriving DecidableEq, Repr

/-- What the collaborators do when called. `none` is success, `some e` is a
thrown exception or a rejected promise carrying `e`. -/
structure Env where
  step : StartupStep → Option Err
  listen : Option Err
  cleanup : Cleanup → CleanupOutcome

/-- Statements of the `try` block of `startServer`. The `require` and
`getInstance()` accessors between them have no observable effect here. -/
inductive Stmt
  | await (s : StartupStep)
  | info (m : InfoMsg)
  | listen
  deriving DecidableEq, Repr

/-- The `try` block of `startServer` (lines 130-159), statement by statement. -/
def tryBody : List Stmt :=
  [.await .initializeAzureServices, .info .azureInitialized,
   .await .configManagerInitialize, .info .configInitialized,
   .await .storageServiceInitialize, .await .storageServiceInitializeContainer,
   .info .storageReady,
   .await .cacheServiceInitialize, .info .cacheReady,
   .listen]

/-- Whether the process is still running. -/
inductive Status
  | running
  | exited (code : Nat)   -- `process.exit(code)` was called
  | crashed (e : Err)     -- ended by an uncaught exception (no `uncaughtException` listener is registered)
  deriving DecidableEq, Repr

/-- State of the process. `cont` is the suspended `startServer`: the step whose
promise is being awaited and the statements that follow it. -/
structure Proc where
  trace : List Event
  status : Status
  listening : Bool
  cont : Option (StartupStep × List Stmt)

/-- The process right after module load, before `startServer()` on line 193. -/
def Proc.init : Proc :=
  { trace := [], status := .running, listening := false, cont := none }

/-- Append an event to the trace. -/
def Proc.emit (p : Proc) (e : Event) : Proc :=
  { p with trace := p.trace ++ [e] }

/-- The `catch` block of `startServer` (lines 160-163). -/
def catchBlock (e : Err) (p : Proc) : Proc :=
  { ((p.emit (.failedToStart e)).emit (.exit 1)) with
      status := .exited 1, cont := none }

/-- Run the statements of the `try` block synchronously up to the next `await`,
where the function suspends with the step invoked and its promise pending. -/
def runSync (env : Env) : List Stmt → Proc → Proc
  | [], p => { p with cont := none }
  | .info m :: k, p => runSync env k (p.emit (.info m))
  | .listen :: k, p =>
    match env.listen with
    | none => runSync env k { (p.emit .listen) with listening := true }
    | some e => catchBlock e (p.emit .listen)
  | .await s :: k, p => { (p.emit (.invoke s)) with cont := some (s, k) }

/-- The awaited promise settles: on success `startServer` resumes after the
`await`, on failure control passes to the `catch` block. -/
def settle (env : Env) (p : Proc) : Proc :=
  match p.status, p.cont with
  | .running, some (s, k) =>
    match env.step s with
    | none => runSync env k ({ p with cont := none }.emit (.completed s))
    | some e => catchBlock e { p with cont := none }
  | _, _ => p

/-- Settle pending promises until `startServer` has returned or the process has
exited; `fuel` bounds the number of awaits. -/
def drain (env : Env) : Nat → Proc → Proc
  | 0, p => p
  | fuel + 1, p => drain env fuel (settle env p)

/-- A call of `startServer()` that runs to its end without a signal arriving
in between. The body has five awaits. -/
def startServer (env : Env) (p : Proc) : Proc :=
  match p.status with
  | .running => drain env tryBody.length (runSync env tryBody p)
  | _ => p

/-- The handler registered by `process.on('SIGTERM', ...)` (lines 167-178).
The cleanup calls are neither awaited nor guarded by `try`: a synchronous
throw escapes the handler, a rejected promise goes unobserved. -/
def onSIGTERM (env : Env) (p : Proc) : Proc :=
  let p := p.emit (.info (.received .SIGTERM))
  let p := p.emit (.cleanup .dbManagerDisconnect)
  match env.cleanup .dbManagerDisconnect with
  | .throws e => { (p.emit (.uncaught e)) with status := .crashed e }
  | _ =>
    let p := p.emit (.cleanup .cacheServiceDestroy)
    match env.cleanup .cacheServiceDestroy with
    | .throws e => { (p.emit (.uncaught e)) with status := .crashed e }
    | _ => { (p.emit (.exit 0)) with status := .exited 0 }

/-- The handler registered by `process.on('SIGINT', ...)` (lines 180-191). -/
def onSIGINT (env : Env) (p : Proc) : Proc :=
  let p := p.emit (.info (.received .SIGINT))
  let p := p.emit (.cleanup .dbManagerDisconnect)
  match env.cleanup .dbManagerDisconnect with
  | .throws e => { (p.emit (.uncaught e)) with status := .crashed e }
  | _ =>
    let p := p.emit (.cleanup .cacheServiceDestroy)
    match env.cleanup .cacheServiceDestroy with
    | .throws e => { (p.emit (.uncaught e)) with status := .crashed e }
    | _ => { (p.emit (.exit 0)) with status := .exited 0 }

/-- The handler the runtime calls for a signal. -/
def handler (env : Env) : Signal → Proc → Proc
  | .SIGTERM => onSIGTERM env
  | .SIGINT => onSIGINT env

/-- The route handler of `app.get('/health', ...)` (lines 68-76); the
middleware in front of it is taken to pass the request on. -/
def healthRoute (p : Proc) : Proc :=
  p.emit .healthy

/-- What can happen to the process from outside. -/
inductive Input
  | settled              -- the promise `startServer` awaits settles
  | signal (s : Signal)  -- a termination signal is delivered
  | getHealth            -- a client sends `GET /health`
  deriving DecidableEq, Repr

/-- One step of the process. A terminated process does nothing; a request is
served only through the listener bound by `app.listen`. -/
def deliver (env : Env) (p : Proc) : Input → Proc
  | .settled => settle env p
  | .signal s =>
    match p.status with
    | .running => handler env s p
    | _ => p
  | .getHealth =>
    match p.status, p.listening with
    | .running, true => healthRoute p
    | _, _ => p

/-- The process after `startServer()` on line 193 has run up to its first
`await`. -/
def launch (env : Env) : Proc :=
  runSync env tryBody Proc.init

/-- The process after a sequence of inputs. -/
def run (env : Env) (inputs : List Input) : Proc :=
  inputs.foldl (deliver env) (launch env)

/-- The startup steps invoked in a trace, in order. -/
def invoked : List Event → List StartupStep
  | [] => []
  | .invoke s :: t => s :: invoked t
  | _ :: t => invoked t

/-- The errors handed to the `catch` block of `startServer` in a trace. -/
def caught : List Event → List Err
  | [] => []
  | .failedToStart e :: t => e :: caught t
  | _ :: t => caught t

/-- An environment in which every startup step and `app.listen` succeed. -/
def okEnv : Env :=
  { step := fun _ => none, listen := none, cleanup := fun _ => .ok }


/-- The steps that precede `s` in the startup order. -/
def before (s : StartupStep) : List StartupStep :=
  startupOrder.takeWhile (fun t => t != s)

/-- The steps that follow `s` in the startup order. -/
def after (s : StartupStep) : List StartupStep :=
  (startupOrder.dropWhile (fun t => t != s)).tail

/-- The events of a run in which every step before `s` succeeds, up to and
including the invocation of `s`. -/
def throughStep : StartupStep → List Event
  | .initializeAzureServices =>
    [.invoke .initializeAzureServices]
  | .configManagerInitialize =>
    [.invoke .initializeAzureServices, .completed .initializeAzureServices,
     .info .azureInitialized, .invoke .configManagerInitialize]
  | .storageServiceInitialize =>
    [.invoke .initializeAzureServices, .completed .initializeAzureServices,
     .info .azureInitialized, .invoke .configManagerInitialize,
     .completed .configManagerInitialize, .info .configInitialized,
     .invoke .storageServiceInitialize]
  | .storageServiceInitializeContainer =>
    [.invoke .initializeAzureServices, .completed .initializeAzureServices,
     .info .azureInitialized, .invoke .configManagerInitialize,
     .completed .configManagerInitialize, .info .configInitialized,
     .invoke .storageServiceInitialize, .completed .storageServiceInitialize,
     .invoke .storageServiceInitializeContainer]
  | .cacheServiceInitialize =>
    [.invoke .initializeAzureServices, .completed .initializeAzureServices,
     .info .azureInitialized, .invoke .configManagerInitialize,
     .completed .configManagerInitialize, .info .configInitialized,
     .invoke .storageServiceInitialize, .completed .storageServiceInitialize,
     .invoke .storageServiceInitializeContainer,
     .completed .storageServiceInitializeContainer, .info .storageReady,
     .invoke .cacheServiceInitialize]

/-- The events of a run in which every step succeeds, up to and including the
call of `app.listen`. -/
def throughListen : List Event :=
  throughStep .cacheServiceInitialize ++
    [.completed .cacheServiceInitialize, .info .cacheReady, .listen]

/-- The trace of the one call `startServer()` the program makes (line 193). -/
def startupTrace (env : Env) : List Event :=
  (startServer env Proc.init).trace

/-- The calls of startup steps and of `app.listen` in a trace. -/
def calls (tr : List Event) : List Event :=
  tr.filter fun ev =>
    match ev with
    | .invoke _ => true
    | .listen => true
    | _ => false

/-- An environment in which configuration succeeds and
`storageService.initialize()` fails with error `7`. -/
def storageDownEnv : Env :=
  { step := fun s => if s = .storageServiceInitialize then some 7 else none,
    listen := none, cleanup := fun _ => .ok }

/-- The services of the backend that hold resources. -/
inductive Service
  | database
  | config
  | storage
  | cache
  deriving DecidableEq, Repr

/-- The service a cleanup call tears down: `dbManager.disconnect()` the
database connection, `cacheService.destroy()` the cache. `index.js` contains
no call that tears down the configuration manager or the storage service. -/
def Cleanup.service : Cleanup → Service
  | .dbManagerDisconnect => .database
  | .cacheServiceDestroy => .cache

/-- The services torn down in a trace, in order. -/
def teardowns : List Event → List Service
  | [] => []
  | .cleanup c :: t => c.service :: teardowns t
  | _ :: t => teardowns t

/-- Whether a cleanup call throws synchronously. -/
def CleanupOutcome.throwsSync : CleanupOutcome → Bool
  | .throws _ => true
  | _ => false

/-- The process after a sequence of inputs, from state `p`. -/
def runFrom (env : Env) (p : Proc) (inputs : List Input) : Proc :=
  inputs.foldl (deliver env) p

/-- An environment in which `dbManager.disconnect()` returns a promise that
rejects with error `5`. -/
def rejectEnv : Env :=
  { step := fun _ => none, listen := none,
    cleanup := fun c => if c = .dbManagerDisconnect then .rejects 5 else .ok }

/-- An environment in which `dbManager.disconnect()` throws error `4`
synchronously. -/
def throwEnv : Env :=
  { step := fun _ => none, listen := none,
    cleanup := fun c => if c = .dbManagerDisconnect then .throws 4 else .ok }

/-- The Orchestrator of the specification (section 3), as far as its shutdown
path observes it: the one-shot latch, whether the listener is bound, the
handles torn down so far, and the exit code once the process has exited. -/
structure Orchestrator where
  shutdownLatch : Bool
  listening : Bool
  tornDown : List Service
  exitCode : Option Nat

/-- The Orchestrator of the specification after a successful `startup()`. -/
def Orchestrator.serving : Orchestrator :=
  { shutdownLatch := false, listening := true, tornDown := [], exitCode := none }

/-- The routine `Orchestrator.shutdown(reason)` in the words of the
specification (section 4.4), for the handles Config, Storage, Cache: a caller
that finds the latch tripped returns at once; the first caller trips it,
unbinds the listener, tears the handles down in reverse dependency order, any
teardown error being logged and not raised, and exits with code 0 when every
teardown reported success and with the non-zero code `errorCode` otherwise.
`index.js` has no such routine; this definition is the specification's side of
the comparison with the signal handlers. -/
def Orchestrator.shutdown (teardownFails : Service → Bool) (errorCode : Nat)
    (o : Orchestrator) : Orchestrator :=
  if o.shutdownLatch then o
  else
    { shutdownLatch := true
      listening := false
      tornDown := o.tornDown ++ [.cache, .storage, .config]
      exitCode :=
        some (if [Service.cache, .storage, .config].any teardownFails then errorCode else 0) }

/-- The statements that follow `await s` in the `try` block. -/
def rest : StartupStep → List Stmt
  | .initializeAzureServices => tryBody.drop 1
  | .configManagerInitialize => tryBody.drop 3
  | .storageServiceInitialize => tryBody.drop 5
  | .storageServiceInitializeContainer => tryBody.drop 6
  | .cacheServiceInitialize => tryBody.drop 8

/-- Every startup step has completed successfully in the trace. -/
def AllCompleted (tr : List Event) : Prop :=
  ∀ s, Event.completed s ∈ tr

/-- Every `healthy` response in the trace comes after all startup steps have
completed successfully. -/
def HealthyOnlyAfterStartup (tr : List Event) : Prop :=
  ∀ n, tr[n]? = some .healthy → AllCompleted (tr.take n)

/-- Invariant of the process: the health property of the trace; a bound
listener means startup has completed; and a suspended `startServer` awaits a
step whose predecessors have completed, with no listener bound yet. -/
def Inv (p : Proc) : Prop :=
  HealthyOnlyAfterStartup p.trace ∧
  (p.listening = true → AllCompleted p.trace) ∧
  (∀ s k, p.cont = some (s, k) →
    k = rest s ∧ (∀ t ∈ before s, Event.completed t ∈ p.trace) ∧ p.listening = false)

theorem startServer_of_first_failure (env : Env) (p : Proc) (hp : p.status = .running)
    (s : StartupStep) (e : Err) (hs : env.step s = some e)
    (hb : ∀ t ∈ before s, env.step t = none) :
    startServer env p =
      { trace := p.trace ++ throughStep s ++ [.failedToStart e, .exit 1],
        status := .exited 1, listening := p.listening, cont := none } := by
  cases s <;>
    simp [before, startupOrder] at hb <;>
    simp [startServer, hp, tryBody, runSync, drain, settle, catchBlock, Proc.emit,
      throughStep, hs, hb]

theorem startServer_of_listen_failure (env : Env) (p : Proc) (hp : p.status = .running)
    (e : Err) (hl : env.listen = some e) (hall : ∀ t, env.step t = none) :
    startServer env p =
      { trace := p.trace ++ throughListen ++ [.failedToStart e, .exit 1],
        status := .exited 1, listening := p.listening, cont := none } := by
  simp [startServer, hp, tryBody, runSync, drain, settle, catchBlock, Proc.emit,
      throughStep, throughListen, hl, hall]

theorem startServer_of_success (env : Env) (p : Proc) (hp : p.status = .running)
    (hl : env.listen = none) (hall : ∀ t, env.step t = none) :
    startServer env p =
      { trace := p.trace ++ throughListen,
        status := .running, listening := true, cont := none } := by
  simp [startServer, hp, tryBody, runSync, drain, settle, catchBlock, Proc.emit,
      throughStep, throughListen, hl, hall]

theorem exists_first_failure (env : Env) (h : ∃ s, env.step s ≠ none) :
    ∃ s e, env.step s = some e ∧ ∀ t ∈ before s, env.step t = none := by
  obtain ⟨s, hs⟩ := h
  rcases h1 : env.step .initializeAzureServices with _ | e1
  · rcases h2 : env.step .configManagerInitialize with _ | e2
    · rcases h3 : env.step .storageServiceInitialize with _ | e3
      · rcases h4 : env.step .storageServiceInitializeContainer with _ | e4
        · rcases h5 : env.step .cacheServiceInitialize with _ | e5
          · cases s <;> simp_all
          · exact ⟨_, e5, h5, by simp [before, startupOrder, h1, h2, h3, h4]⟩
        · exact ⟨_, e4, h4, by simp [before, startupOrder, h1, h2, h3]⟩
      · exact ⟨_, e3, h3, by simp [before, startupOrder, h1, h2]⟩
    · exact ⟨_, e2, h2, by simp [before, startupOrder, h1]⟩
  · exact ⟨_, e1, h1, by simp [before, startupOrder]⟩

/-- C1: if step `s` is the first startup step that fails, with error `e`, then
the steps invoked are exactly those up to and including `s`, no step after `s`
is invoked, and the one error handed to the `catch` block is `e`. -/
theorem first_failure_stops_startup (env : Env) (s : StartupStep) (e : Err)
    (hfail : env.step s = some e) (hbefore : ∀ t ∈ before s, env.step t = none) :
    invoked (startupTrace env) = before s ++ [s] ∧
    (∀ t ∈ after s, Event.invoke t ∉ startupTrace env) ∧
    caught (startupTrace env) = [e] := by
  rw [startupTrace, startServer_of_first_failure env Proc.init rfl s e hfail hbefore]
  cases s <;> simp [Proc.init, throughStep, invoked, caught, before, after, startupOrder]

theorem first_failure_stops_startup_witness :
    storageDownEnv.step .storageServiceInitialize = some 7 ∧
    (∀ t ∈ before .storageServiceInitialize, storageDownEnv.step t = none) ∧
    invoked (startupTrace storageDownEnv) =
      [.initializeAzureServices, .configManagerInitialize, .storageServiceInitialize] ∧
    (∀ t ∈ after .storageServiceInitialize, Event.invoke t ∉ startupTrace storageDownEnv) ∧
    caught (startupTrace storageDownEnv) = [7] :=
  ⟨rfl, by decide,
    first_failure_stops_startup storageDownEnv .storageServiceInitialize 7 rfl (by decide)⟩

/-- C2: `app.listen` is invoked exactly when every startup step succeeds; and
either every step succeeds, or the error of a failing step is logged,
`process.exit(1)` is called, the run ends there, `app.listen` is never invoked
and no listener is bound. -/
theorem listen_iff_all_steps_succeed (env : Env) :
    (Event.listen ∈ startupTrace env ↔ ∀ s, env.step s = none) ∧
    ((∀ s, env.step s = none) ∨
      ∃ s e pre, env.step s = some e ∧
        startupTrace env = pre ++ [.failedToStart e, .exit 1] ∧
        Event.listen ∉ startupTrace env ∧
        (startServer env Proc.init).status = .exited 1 ∧
        (startServer env Proc.init).listening = false) := by
  by_cases hall : ∀ s, env.step s = none
  · refine ⟨⟨fun _ => hall, fun _ => ?_⟩, Or.inl hall⟩
    rcases hl : env.listen with _ | e
    · simp [startupTrace, startServer_of_success env Proc.init rfl hl hall, throughListen]
    · simp [startupTrace, startServer_of_listen_failure env Proc.init rfl e hl hall,
        throughListen]
  · obtain ⟨s, e, hs, hb⟩ := exists_first_failure env (by
      by_contra hne
      exact hall fun s => by
        by_contra hs
        exact hne ⟨s, hs⟩)
    have hrun := startServer_of_first_failure env Proc.init rfl s e hs hb
    have hno : Event.listen ∉ startupTrace env := by
      rw [startupTrace, hrun]
      cases s <;> simp [Proc.init, throughStep]
    refine ⟨⟨fun h => absurd h hno, fun h => absurd h hall⟩, Or.inr ?_⟩
    refine ⟨s, e, throughStep s, hs, ?_, hno, ?_, ?_⟩
    · rw [startupTrace, hrun]
      simp [Proc.init]
    · rw [hrun]
    · rw [hrun]
      rfl

/-- Every trace of `startServer` has one of three shapes. -/
theorem startupTrace_shape (env : Env) :
    startupTrace env = throughListen ∨
    (∃ e, startupTrace env = throughListen ++ [.failedToStart e, .exit 1]) ∨
    (∃ s e, startupTrace env = throughStep s ++ [.failedToStart e, .exit 1]) := by
  by_cases hall : ∀ s, env.step s = none
  · rcases hl : env.listen with _ | e
    · left
      rw [startupTrace, startServer_of_success env Proc.init rfl hl hall]
      simp [Proc.init]
    · right; left
      refine ⟨e, ?_⟩
      rw [startupTrace, startServer_of_listen_failure env Proc.init rfl e hl hall]
      simp [Proc.init]
  · obtain ⟨s, e, hs, hb⟩ := exists_first_failure env (by
      by_contra hne
      exact hall fun s => by
        by_contra hs
        exact hne ⟨s, hs⟩)
    right; right
    refine ⟨s, e, ?_⟩
    rw [startupTrace, startServer_of_first_failure env Proc.init rfl s e hs hb]
    simp [Proc.init]

theorem startupTrace_sequential (env : Env) (n : Nat) (s : StartupStep)
    (h : (startupTrace env)[n]? = some (.invoke s)) :
    (∀ t ∈ invoked ((startupTrace env).take n),
      Event.completed t ∈ (startupTrace env).take n) ∧
    (s ∈ [StartupStep.storageServiceInitialize, .storageServiceInitializeContainer,
          .cacheServiceInitialize] →
      Event.completed .configManagerInitialize ∈ (startupTrace env).take n) := by
  have hlen : (startupTrace env).length ≤ 17 := by
    rcases startupTrace_shape env with h1 | ⟨e, h1⟩ | ⟨s', e, h1⟩
    · simp [h1, throughListen, throughStep]
    · simp [h1, throughListen, throughStep]
    · rw [h1]
      cases s' <;> simp [throughStep]
  have hn : n < 17 := by
    by_contra hge
    have : (startupTrace env)[n]? = none := by
      apply List.getElem?_eq_none
      omega
    simp [this] at h
  clear hlen
  rcases startupTrace_shape env with h1 | ⟨e, h1⟩ | ⟨s', e, h1⟩
  · rw [h1] at h ⊢
    interval_cases n <;> simp [throughListen, throughStep, invoked] at h ⊢ <;> simp [← h]
  · rw [h1] at h ⊢
    interval_cases n <;> simp [throughListen, throughStep, invoked] at h ⊢ <;> simp [← h]
  · rw [h1] at h ⊢
    cases s' <;> interval_cases n <;> simp [throughStep, invoked] at h ⊢ <;> simp [← h]

theorem invoked_throughStep_prefix (s : StartupStep) (tail : List Event)
    (htail : invoked tail = []) :
    invoked (throughStep s ++ tail) <+: startupOrder := by
  have happ : ∀ a b : List Event, invoked (a ++ b) = invoked a ++ invoked b := by
    intro a b
    induction a with
    | nil => rfl
    | cons x a ih => cases x <;> simp [invoked, ih]
  rw [happ, htail]
  cases s <;> simp [throughStep, invoked, startupOrder]

/-- C3: in every run of `startServer` the steps are invoked in the one fixed
order; a step is invoked only after every step invoked before it has completed
successfully, and the storage and cache steps only after
`configManager.initialize` has completed successfully; when every step
succeeds the calls made are exactly the five steps in order, then
`app.listen`. -/
theorem startup_steps_strictly_sequential (env : Env) :
    invoked (startupTrace env) <+: startupOrder ∧
    (∀ n s, (startupTrace env)[n]? = some (.invoke s) →
      (∀ t ∈ invoked ((startupTrace env).take n),
        Event.completed t ∈ (startupTrace env).take n) ∧
      (s ∈ [StartupStep.storageServiceInitialize, .storageServiceInitializeContainer,
            .cacheServiceInitialize] →
        Event.completed .configManagerInitialize ∈ (startupTrace env).take n)) ∧
    (∀ l c, calls (startupTrace { step := fun _ => none, listen := l, cleanup := c }) =
      [.invoke .initializeAzureServices, .invoke .configManagerInitialize,
       .invoke .storageServiceInitialize, .invoke .storageServiceInitializeContainer,
       .invoke .cacheServiceInitialize, .listen]) := by
  refine ⟨?_, startupTrace_sequential env, ?_⟩
  · rcases startupTrace_shape env with h1 | ⟨e, h1⟩ | ⟨s, e, h1⟩
    · rw [h1]
      decide
    · rw [h1]
      simp [throughListen, throughStep, invoked]
      decide
    · rw [h1]
      exact invoked_throughStep_prefix s _ rfl
  · intro l c
    rcases l with _ | e
    · rw [startupTrace, startServer_of_success _ Proc.init rfl rfl (fun _ => rfl)]
      decide
    · rw [startupTrace, startServer_of_listen_failure _ Proc.init rfl e rfl (fun _ => rfl)]
      simp [Proc.init, throughListen, throughStep, calls]

/-- In the all-success run the storage step is the seventh event, and by then
configuration has completed. -/
theorem startup_steps_strictly_sequential_witness :
    (startupTrace okEnv)[6]? = some (.invoke .storageServiceInitialize) ∧
    Event.completed .configManagerInitialize ∈ (startupTrace okEnv).take 6 :=
  ⟨by decide,
    ((startup_steps_strictly_sequential okEnv).2.1 6 .storageServiceInitialize
      (by decide)).2 (by decide)⟩

theorem teardowns_append (a b : List Event) :
    teardowns (a ++ b) = teardowns a ++ teardowns b := by
  induction a with
  | nil => rfl
  | cons x a ih => cases x <;> simp [teardowns, ih]

/-- C4 as stated fails: configuration initialises, storage then throws, and
the configuration service is not torn down once (no teardown call is made). -/
theorem no_teardown_after_storage_failure :
    Event.completed .configManagerInitialize ∈ startupTrace storageDownEnv ∧
    (startServer storageDownEnv Proc.init).status = .exited 1 ∧
    ¬ ((teardowns (startupTrace storageDownEnv)).count .config = 1) := by
  decide

/-- C4 amended: no run of `startServer` makes a teardown call, whichever step
fails; and when configuration initialises and storage then throws, the cache
service's initialize is never called and the process exits with status 1. -/
theorem startup_failure_tears_nothing_down (env : Env) :
    teardowns (startupTrace env) = [] ∧
    (∀ c, Event.cleanup c ∉ startupTrace env) ∧
    (∀ e, env.step .initializeAzureServices = none →
      env.step .configManagerInitialize = none →
      env.step .storageServiceInitialize = some e →
      Event.invoke .cacheServiceInitialize ∉ startupTrace env ∧
      (startServer env Proc.init).status = .exited 1) := by
  refine ⟨?_, ?_, ?_⟩
  · rcases startupTrace_shape env with h1 | ⟨e, h1⟩ | ⟨s, e, h1⟩
    · rw [h1]
      decide
    · rw [h1, teardowns_append]
      simp [throughListen, throughStep, teardowns]
    · rw [h1, teardowns_append]
      cases s <;> simp [throughStep, teardowns]
  · intro c
    rcases startupTrace_shape env with h1 | ⟨e, h1⟩ | ⟨s, e, h1⟩
    · rw [h1]
      simp [throughListen, throughStep]
    · rw [h1]
      simp [throughListen, throughStep]
    · rw [h1]
      cases s <;> simp [throughStep]
  · intro e h1 h2 h3
    have hrun := startServer_of_first_failure env Proc.init rfl .storageServiceInitialize e h3
      (by simp [before, startupOrder, h1, h2])
    rw [startupTrace, hrun]
    simp [Proc.init, throughStep]

/-- With storage failing after configuration, the cache is never initialised
and the exit status is 1. -/
theorem startup_failure_tears_nothing_down_witness :
    storageDownEnv.step .storageServiceInitialize = some 7 ∧
    Event.invoke .cacheServiceInitialize ∉ startupTrace storageDownEnv ∧
    (startServer storageDownEnv Proc.init).status = .exited 1 :=
  ⟨rfl, (startup_failure_tears_nothing_down storageDownEnv).2.2 7 rfl rfl rfl⟩

/-- C7 as stated fails: `dbManager.disconnect()` reports an error through the
promise it returns, and the handler still exits with code 0. -/
theorem exit_zero_despite_rejected_cleanup :
    rejectEnv.cleanup .dbManagerDisconnect = .rejects 5 ∧
    ¬ ((onSIGTERM rejectEnv Proc.init).status = .exited 0 ↔
        ∀ c, rejectEnv.cleanup c = .ok) := by
  refine ⟨rfl, fun h => ?_⟩
  have h1 := h.mp (by decide) .dbManagerDisconnect
  exact absurd h1 (by decide)

/-- C7 amended: a signal handler calls `process.exit(0)` exactly when neither
cleanup call throws synchronously, whatever a returned promise reports later;
it never calls `process.exit` with another code, and when a cleanup call
throws synchronously the exception escapes the handler. -/
theorem handler_exit_code (env : Env) (sig : Signal) (p : Proc) :
    ((handler env sig p).status = .exited 0 ↔
      ∀ c, (env.cleanup c).throwsSync = false) ∧
    (∀ code, (handler env sig p).status = .exited code → code = 0) ∧
    ((∃ c, (env.cleanup c).throwsSync = true) →
      ∃ e, (handler env sig p).status = .crashed e) := by
  have hall : (∀ c, (env.cleanup c).throwsSync = false) ↔
      (env.cleanup .dbManagerDisconnect).throwsSync = false ∧
      (env.cleanup .cacheServiceDestroy).throwsSync = false :=
    ⟨fun h => ⟨h _, h _⟩, fun h c => by cases c <;> simp [h.1, h.2]⟩
  have hex : (∃ c, (env.cleanup c).throwsSync = true) ↔
      (env.cleanup .dbManagerDisconnect).throwsSync = true ∨
      (env.cleanup .cacheServiceDestroy).throwsSync = true :=
    ⟨fun ⟨c, h⟩ => by cases c <;> simp [h], fun h => h.elim (fun h => ⟨_, h⟩) (fun h => ⟨_, h⟩)⟩
  rw [hall, hex]
  cases sig <;>
    rcases h1 : env.cleanup .dbManagerDisconnect with _ | e1 | e1 <;>
    rcases h2 : env.cleanup .cacheServiceDestroy with _ | e2 | e2 <;>
    simp [handler, onSIGTERM, onSIGINT, Proc.emit, CleanupOutcome.throwsSync, h1, h2]

/-- A handler whose first cleanup call throws synchronously crashes. -/
theorem handler_exit_code_witness :
    ∃ e, (handler { step := fun _ => none, listen := none,
                    cleanup := fun _ => .throws 9 } .SIGINT Proc.init).status = .crashed e :=
  (handler_exit_code _ .SIGINT Proc.init).2.2 ⟨.dbManagerDisconnect, rfl⟩

/-- C6 as stated fails: after a fully successful startup a SIGTERM tears down
the database connection and the cache, not cache, storage and configuration. -/
theorem teardown_is_not_reverse_startup_order :
    (startServer okEnv Proc.init).status = .running ∧
    teardowns (deliver okEnv (startServer okEnv Proc.init) (.signal .SIGTERM)).trace =
      [.database, .cache] ∧
    ¬ (teardowns (deliver okEnv (startServer okEnv Proc.init) (.signal .SIGTERM)).trace =
      [.cache, .storage, .config]) := by
  decide

/-- C6 amended: after a fully successful startup, a termination signal makes
the handler call `dbManager.disconnect()` and then, unless that call throws
synchronously, `cacheService.destroy()`: the teardown trace is database,
cache, or database alone when `disconnect` throws synchronously; storage and
configuration are never torn down; and when neither cleanup call throws
synchronously the handler then ends the process with `process.exit(0)`. -/
theorem signal_after_startup_tears_down_database_then_cache (env : Env) (sig : Signal)
    (hsteps : ∀ s, env.step s = none) (hlisten : env.listen = none) :
    teardowns (deliver env (startServer env Proc.init) (.signal sig)).trace =
      (if (env.cleanup .dbManagerDisconnect).throwsSync then [.database]
       else [.database, .cache]) ∧
    Service.storage ∉
      teardowns (deliver env (startServer env Proc.init) (.signal sig)).trace ∧
    Service.config ∉
      teardowns (deliver env (startServer env Proc.init) (.signal sig)).trace ∧
    ((∀ c, (env.cleanup c).throwsSync = false) →
      (deliver env (startServer env Proc.init) (.signal sig)).status = .exited 0 ∧
      (deliver env (startServer env Proc.init) (.signal sig)).trace =
        startupTrace env ++
          [.info (.received sig), .cleanup .dbManagerDisconnect,
           .cleanup .cacheServiceDestroy, .exit 0]) := by
  rw [startupTrace, startServer_of_success env Proc.init rfl hlisten hsteps]
  refine ⟨?_, ?_, ?_, ?_⟩
  · cases sig <;>
      rcases h1 : env.cleanup .dbManagerDisconnect with _ | e1 | e1 <;>
      rcases h2 : env.cleanup .cacheServiceDestroy with _ | e2 | e2 <;>
      simp [deliver, handler, onSIGTERM, onSIGINT, Proc.emit, Proc.init, h1, h2,
        teardowns_append, teardowns, throughListen, throughStep, Cleanup.service,
        CleanupOutcome.throwsSync]
  · cases sig <;>
      rcases h1 : env.cleanup .dbManagerDisconnect with _ | e1 | e1 <;>
      rcases h2 : env.cleanup .cacheServiceDestroy with _ | e2 | e2 <;>
      simp [deliver, handler, onSIGTERM, onSIGINT, Proc.emit, Proc.init, h1, h2,
        teardowns_append, teardowns, throughListen, throughStep, Cleanup.service]
  · cases sig <;>
      rcases h1 : env.cleanup .dbManagerDisconnect with _ | e1 | e1 <;>
      rcases h2 : env.cleanup .cacheServiceDestroy with _ | e2 | e2 <;>
      simp [deliver, handler, onSIGTERM, onSIGINT, Proc.emit, Proc.init, h1, h2,
        teardowns_append, teardowns, throughListen, throughStep, Cleanup.service]
  · intro hsync
    have h1 := hsync .dbManagerDisconnect
    have h2 := hsync .cacheServiceDestroy
    cases sig <;>
      rcases h1' : env.cleanup .dbManagerDisconnect with _ | e1 | e1 <;>
      rcases h2' : env.cleanup .cacheServiceDestroy with _ | e2 | e2 <;>
      simp [h1', h2', CleanupOutcome.throwsSync] at h1 h2 <;>
      simp [deliver, handler, onSIGTERM, onSIGINT, Proc.emit, Proc.init, h1', h2']

/-- With `disconnect` throwing synchronously after a successful startup, SIGINT
tears down the database alone; with every collaborator succeeding it tears
down database and cache and exits with code 0. -/
theorem signal_after_startup_tears_down_database_then_cache_witness :
    (∀ s, throwEnv.step s = none) ∧ throwEnv.listen = none ∧
    teardowns (deliver throwEnv (startServer throwEnv Proc.init) (.signal .SIGINT)).trace =
      [.database] ∧
    teardowns (deliver okEnv (startServer okEnv Proc.init) (.signal .SIGINT)).trace =
      [.database, .cache] ∧
    (deliver okEnv (startServer okEnv Proc.init) (.signal .SIGINT)).status = .exited 0 :=
  ⟨fun _ => rfl, rfl,
    (signal_after_startup_tears_down_database_then_cache throwEnv .SIGINT
      (fun _ => rfl) rfl).1,
    (signal_after_startup_tears_down_database_then_cache okEnv .SIGINT
      (fun _ => rfl) rfl).1,
    ((signal_after_startup_tears_down_database_then_cache okEnv .SIGINT
      (fun _ => rfl) rfl).2.2.2 (fun _ => rfl)).1⟩

theorem handler_status_ne_running (env : Env) (sig : Signal) (p : Proc) :
    (handler env sig p).status ≠ .running := by
  cases sig <;>
    rcases h1 : env.cleanup .dbManagerDisconnect with _ | e1 | e1 <;>
    rcases h2 : env.cleanup .cacheServiceDestroy with _ | e2 | e2 <;>
    simp [handler, onSIGTERM, onSIGINT, Proc.emit, h1, h2]

theorem runFrom_signals_of_not_running (env : Env) (sigs : List Signal) (p : Proc)
    (hp : p.status ≠ .running) :
    runFrom env p (sigs.map .signal) = p := by
  induction sigs with
  | nil => rfl
  | cons s sigs ih =>
    have hstep : deliver env p (.signal s) = p := by
      cases hst : p.status with
      | running => exact absurd hst hp
      | exited code => simp [deliver, hst]
      | crashed e => simp [deliver, hst]
    simpa [runFrom, hstep] using ih

/-- C5 as stated fails: when `dbManager.disconnect()` throws synchronously,
the handler of the first signal does not run `cacheService.destroy()` once:
the exception escapes before that call, and the call is never made. -/
theorem first_handler_skips_destroy_when_disconnect_throws :
    (startServer throwEnv Proc.init).status = .running ∧
    (runFrom throwEnv (startServer throwEnv Proc.init)
        [.signal .SIGTERM, .signal .SIGINT]).trace.count
      (.cleanup .cacheServiceDestroy) = 0 ∧
    ¬ ((runFrom throwEnv (startServer throwEnv Proc.init)
        [.signal .SIGTERM, .signal .SIGINT]).trace.count
      (.cleanup .cacheServiceDestroy) = 1) := by
  decide

/-- C5 amended: for every non-empty sequence of termination signals delivered
to the running process, the outcome is that of the first signal's handler
alone: the later signals find the process terminated and execute nothing.
That one pass logs one signal, calls `dbManager.disconnect()` once, and calls
`cacheService.destroy()` once unless `disconnect` throws synchronously, in
which case `destroy` is not called at all. -/
theorem signals_run_one_cleanup_pass (env : Env) (p : Proc) (sig : Signal)
    (sigs : List Signal) (hp : p.status = .running) :
    runFrom env p ((sig :: sigs).map .signal) = handler env sig p ∧
    (handler env sig p).status ≠ .running ∧
    (∃ pass, (handler env sig p).trace = p.trace ++ pass ∧
      pass.count (.info (.received sig)) = 1 ∧
      pass.count (.cleanup .dbManagerDisconnect) = 1 ∧
      pass.count (.cleanup .cacheServiceDestroy) =
        if (env.cleanup .dbManagerDisconnect).throwsSync then 0 else 1) := by
  refine ⟨?_, handler_status_ne_running env sig p, ?_⟩
  · have hfirst : deliver env p (.signal sig) = handler env sig p := by
      simp [deliver, hp]
    have := runFrom_signals_of_not_running env sigs (handler env sig p)
      (handler_status_ne_running env sig p)
    simpa [runFrom, hfirst] using this
  · cases sig <;>
      rcases h1 : env.cleanup .dbManagerDisconnect with _ | e1 | e1 <;>
      rcases h2 : env.cleanup .cacheServiceDestroy with _ | e2 | e2 <;>
      simp [handler, onSIGTERM, onSIGINT, Proc.emit, h1, h2, CleanupOutcome.throwsSync]

/-- Three signals after startup: the outcome is that of the first handler. -/
theorem signals_run_one_cleanup_pass_witness :
    (startServer okEnv Proc.init).status = .running ∧
    runFrom okEnv (startServer okEnv Proc.init)
        ([Signal.SIGTERM, .SIGINT, .SIGTERM].map .signal) =
      handler okEnv .SIGTERM (startServer okEnv Proc.init) :=
  ⟨by decide,
    (signals_run_one_cleanup_pass okEnv (startServer okEnv Proc.init) .SIGTERM
      [.SIGINT, .SIGTERM] (by decide)).1⟩

/-- C10 as stated fails: a handler is not a single call into the shutdown
routine of the specification. After a successful startup that routine tears
down cache, storage, configuration and unbinds the listener; the SIGTERM
handler tears down database, cache and leaves the listener flag alone. -/
theorem handler_is_not_the_shutdown_routine :
    teardowns (onSIGTERM okEnv (startServer okEnv Proc.init)).trace = [.database, .cache] ∧
    (onSIGTERM okEnv (startServer okEnv Proc.init)).listening = true ∧
    (Orchestrator.shutdown (fun _ => false) 1 Orchestrator.serving).tornDown =
      [.cache, .storage, .config] ∧
    (Orchestrator.shutdown (fun _ => false) 1 Orchestrator.serving).listening = false ∧
    ¬ (teardowns (onSIGTERM okEnv (startServer okEnv Proc.init)).trace =
        (Orchestrator.shutdown (fun _ => false) 1 Orchestrator.serving).tornDown) := by
  decide

/-- C10 amended: the two handlers write out the same body, each naming its own
signal in the log line. From any state their traces extend the trace so far by
the log line of their signal followed by one common sequence of events, which
starts with the call of `dbManager.disconnect()`; so they make the same
cleanup calls and end the process with the same status. -/
theorem handlers_differ_only_in_signal_name (env : Env) (p : Proc) :
    (∃ body, (onSIGTERM env p).trace = p.trace ++ .info (.received .SIGTERM) :: body ∧
      (onSIGINT env p).trace = p.trace ++ .info (.received .SIGINT) :: body ∧
      body.head? = some (.cleanup .dbManagerDisconnect)) ∧
    teardowns (onSIGTERM env p).trace = teardowns (onSIGINT env p).trace ∧
    (onSIGTERM env p).status = (onSIGINT env p).status ∧
    (onSIGTERM env p).status ≠ .running := by
  rcases h1 : env.cleanup .dbManagerDisconnect with _ | e1 | e1 <;>
    rcases h2 : env.cleanup .cacheServiceDestroy with _ | e2 | e2 <;>
    simp [onSIGTERM, onSIGINT, Proc.emit, h1, h2, teardowns_append, teardowns]

theorem startServer_trace_append (env : Env) (p : Proc) (hp : p.status = .running) :
    (startServer env p).trace = p.trace ++ startupTrace env := by
  by_cases hall : ∀ s, env.step s = none
  · rcases hl : env.listen with _ | e
    · rw [startupTrace, startServer_of_success env p hp hl hall,
        startServer_of_success env Proc.init rfl hl hall]
      simp [Proc.init]
    · rw [startupTrace, startServer_of_listen_failure env p hp e hl hall,
        startServer_of_listen_failure env Proc.init rfl e hl hall]
      simp [Proc.init]
  · obtain ⟨s, e, hs, hb⟩ := exists_first_failure env (by
      by_contra hne
      exact hall fun s => by
        by_contra hs
        exact hne ⟨s, hs⟩)
    rw [startupTrace, startServer_of_first_failure env p hp s e hs hb,
      startServer_of_first_failure env Proc.init rfl s e hs hb]
    simp [Proc.init]

/-- C9 as stated fails: a second call of `startServer` after a successful
first one invokes every initialize step again. -/
theorem second_startServer_reinitializes :
    (startServer okEnv Proc.init).status = .running ∧
    invoked ((startServer okEnv (startServer okEnv Proc.init)).trace.drop
      (startServer okEnv Proc.init).trace.length) = startupOrder ∧
    (invoked (startServer okEnv (startServer okEnv Proc.init)).trace).count
      .configManagerInitialize = 2 := by
  decide

/-- C9 amended: `startServer` has no guard against a repeated call. After a
first call that completed successfully, a second call runs the startup
sequence again exactly as a first call would: it invokes the steps in order
until one fails, and all of them when all succeed. -/
theorem second_startServer_runs_startup_again (env1 env2 : Env)
    (hsteps : ∀ s, env1.step s = none) (hlisten : env1.listen = none) :
    (startServer env1 Proc.init).status = .running ∧
    (startServer env2 (startServer env1 Proc.init)).trace =
      startupTrace env1 ++ startupTrace env2 ∧
    Event.invoke .initializeAzureServices ∈ startupTrace env2 ∧
    ((∀ s, env2.step s = none) → invoked (startupTrace env2) = startupOrder) := by
  have hrun : (startServer env1 Proc.init).status = .running := by
    rw [startServer_of_success env1 Proc.init rfl hlisten hsteps]
  refine ⟨hrun, ?_, ?_, ?_⟩
  · rw [startServer_trace_append env2 _ hrun]
    rfl
  · rcases startupTrace_shape env2 with h1 | ⟨e, h1⟩ | ⟨s, e, h1⟩
    · rw [h1]
      decide
    · rw [h1]
      simp [throughListen, throughStep]
    · rw [h1]
      cases s <;> simp [throughStep]
  · intro hall
    rcases hl : env2.listen with _ | e
    · rw [startupTrace, startServer_of_success env2 Proc.init rfl hl hall]
      decide
    · rw [startupTrace, startServer_of_listen_failure env2 Proc.init rfl e hl hall]
      simp [Proc.init, throughListen, throughStep, invoked, startupOrder]

/-- Two calls with every collaborator succeeding: the trace is the startup
trace twice. -/
theorem second_startServer_runs_startup_again_witness :
    (∀ s, okEnv.step s = none) ∧ okEnv.listen = none ∧
    (startServer okEnv (startServer okEnv Proc.init)).trace =
      startupTrace okEnv ++ startupTrace okEnv :=
  ⟨fun _ => rfl, rfl,
    (second_startServer_runs_startup_again okEnv okEnv (fun _ => rfl) rfl).2.1⟩

theorem healthyOnly_append (tr evs : List Event) (hg : HealthyOnlyAfterStartup tr)
    (hno : Event.healthy ∉ evs) : HealthyOnlyAfterStartup (tr ++ evs) := by
  intro n hn
  by_cases hlt : n < tr.length
  · rw [List.getElem?_append_left hlt] at hn
    rw [List.take_append_of_le_length (Nat.le_of_lt hlt)]
    exact hg n hn
  · rw [List.getElem?_append_right (Nat.le_of_not_lt hlt)] at hn
    exact absurd (List.getElem?_mem hn) hno

theorem healthyOnly_snoc_healthy (tr : List Event) (hg : HealthyOnlyAfterStartup tr)
    (hall : AllCompleted tr) : HealthyOnlyAfterStartup (tr ++ [.healthy]) := by
  intro n hn
  by_cases hlt : n < tr.length
  · rw [List.getElem?_append_left hlt] at hn
    rw [List.take_append_of_le_length (Nat.le_of_lt hlt)]
    exact hg n hn
  · have hle : tr.length ≤ n := Nat.le_of_not_lt hlt
    have hn' : n = tr.length := by
      by_contra hne
      have : (tr ++ [Event.healthy])[n]? = none := by
        apply List.getElem?_eq_none
        simp
        omega
      simp [this] at hn
    subst hn'
    simpa using hall

theorem inv_launch (env : Env) : Inv (launch env) := by
  refine ⟨?_, ?_, ?_⟩
  · intro n hn
    have hmem := List.getElem?_mem hn
    simp [launch, tryBody, runSync, Proc.init, Proc.emit] at hmem
  · simp [launch, tryBody, runSync, Proc.init, Proc.emit]
  · intro s k hk
    simp [launch, tryBody, runSync, Proc.init, Proc.emit] at hk
    obtain ⟨rfl, rfl⟩ := hk
    simp [launch, tryBody, runSync, Proc.init, Proc.emit, rest, before, startupOrder]

theorem inv_handler (env : Env) (sig : Signal) (p : Proc) (h : Inv p) :
    Inv (handler env sig p) := by
  obtain ⟨hg, hl, hc⟩ := h
  have key : ∃ evs, Event.healthy ∉ evs ∧ (handler env sig p).trace = p.trace ++ evs ∧
      (handler env sig p).listening = p.listening ∧ (handler env sig p).cont = p.cont := by
    cases sig <;>
      rcases h1 : env.cleanup .dbManagerDisconnect with _ | e1 | e1 <;>
      rcases h2 : env.cleanup .cacheServiceDestroy with _ | e2 | e2 <;>
      simp [handler, onSIGTERM, onSIGINT, Proc.emit, h1, h2]
  obtain ⟨evs, hno, htr, hlis, hcont⟩ := key
  refine ⟨?_, ?_, ?_⟩
  · rw [htr]
    exact healthyOnly_append _ _ hg hno
  · rw [htr, hlis]
    intro hl' s
    exact List.mem_append_left _ (hl hl' s)
  · rw [htr, hlis, hcont]
    intro s k hk
    obtain ⟨h1, h2, h3⟩ := hc s k hk
    exact ⟨h1, fun t ht => List.mem_append_left _ (h2 t ht), h3⟩

theorem inv_getHealth (env : Env) (p : Proc) (h : Inv p) :
    Inv (deliver env p .getHealth) := by
  obtain ⟨hg, hl, hc⟩ := h
  cases hst : p.status with
  | exited code => simpa [deliver, hst] using ⟨hg, hl, hc⟩
  | crashed e => simpa [deliver, hst] using ⟨hg, hl, hc⟩
  | running =>
    cases hlis : p.listening with
    | false => simpa [deliver, hst, hlis] using ⟨hg, hl, hc⟩
    | true =>
      have hall := hl hlis
      simp only [deliver, hst, hlis, healthRoute, Proc.emit]
      refine ⟨healthyOnly_snoc_healthy _ hg hall, ?_, ?_⟩
      · intro _ s
        exact List.mem_append_left _ (hall s)
      · intro s k hk
        have := (hc s k hk).2.2
        simp [hlis] at this

theorem inv_of_extension (p q : Proc) (evs : List Event) (h : Inv p)
    (htr : q.trace = p.trace ++ evs) (hno : Event.healthy ∉ evs)
    (hlis : q.listening = true → AllCompleted q.trace)
    (hcont : ∀ s k, q.cont = some (s, k) →
      k = rest s ∧ (∀ t ∈ before s, Event.completed t ∈ q.trace) ∧ q.listening = false) :
    Inv q := by
  refine ⟨?_, hlis, hcont⟩
  rw [htr]
  exact healthyOnly_append _ _ h.1 hno

theorem inv_settle (env : Env) (p : Proc) (h : Inv p) : Inv (settle env p) := by
  cases hst : p.status with
  | exited code => simpa [settle, hst] using h
  | crashed e => simpa [settle, hst] using h
  | running =>
    cases hc : p.cont with
    | none => simpa [settle, hst, hc] using h
    | some sk =>
      obtain ⟨s, k⟩ := sk
      obtain ⟨hk, hbefore, hlis⟩ := h.2.2 s k hc
      subst hk
      rcases hs : env.step s with _ | e
      · rcases hl : env.listen with _ | el <;> cases s <;>
          simp [before, startupOrder] at hbefore <;>
          refine inv_of_extension p _ _ h
            (by simp [settle, hst, hc, hs, hl, rest, tryBody, runSync, Proc.emit, catchBlock]; rfl)
            ?_ ?_ ?_ <;>
          simp [settle, hst, hc, hs, hl, rest, tryBody, runSync, Proc.emit, catchBlock,
            before, startupOrder, AllCompleted, hlis, hbefore]
        intro s
        cases s <;> simp [hbefore]
      · refine inv_of_extension p _ [.failedToStart e, .exit 1] h ?_ ?_ ?_ ?_ <;>
          simp [settle, hst, hc, hs, catchBlock, Proc.emit, hlis]

theorem inv_deliver (env : Env) (p : Proc) (i : Input) (h : Inv p) :
    Inv (deliver env p i) := by
  cases i with
  | settled => exact inv_settle env p h
  | getHealth => exact inv_getHealth env p h
  | signal s =>
    cases hst : p.status with
    | running => simpa [deliver, hst] using inv_handler env s p h
    | exited code => simpa [deliver, hst] using h
    | crashed e => simpa [deliver, hst] using h

theorem inv_runFrom (env : Env) (inputs : List Input) (p : Proc) (h : Inv p) :
    Inv (runFrom env p inputs) := by
  induction inputs generalizing p with
  | nil => exact h
  | cons i inputs ih => exact ih _ (inv_deliver env p i h)

/-- C8: in every state the process can reach from launch, through promise
settlements, signals and health requests in any order, each `healthy`
response in the trace comes after all five startup steps completed
successfully; and while a step has not completed, or once the process has
terminated, a request to `/health` is not answered. -/
theorem health_only_after_startup (env : Env) (inputs : List Input) :
    (∀ n, (run env inputs).trace[n]? = some .healthy →
      ∀ s, Event.completed s ∈ (run env inputs).trace.take n) ∧
    ((¬ (∀ s, Event.completed s ∈ (run env inputs).trace) ∨
        (run env inputs).status ≠ .running) →
      deliver env (run env inputs) .getHealth = run env inputs) := by
  have hinv : Inv (run env inputs) := inv_runFrom env inputs _ (inv_launch env)
  refine ⟨hinv.1, ?_⟩
  intro hor
  cases hst : (run env inputs).status with
  | exited code => simp [deliver, hst]
  | crashed e => simp [deliver, hst]
  | running =>
    cases hlis : (run env inputs).listening with
    | false => simp [deliver, hst, hlis]
    | true =>
      rcases hor with hnot | hne
      · exact absurd (hinv.2.1 hlis) hnot
      · exact absurd hst hne

/-- A health request during startup is not answered; the one after startup is,
and all steps have completed before it. -/
theorem health_only_after_startup_witness :
    (run okEnv [.settled, .getHealth, .settled, .settled, .settled, .settled,
        .getHealth]).trace[15]? = some .healthy ∧
    ∀ s, Event.completed s ∈
      (run okEnv [.settled, .getHealth, .settled, .settled, .settled, .settled,
        .getHealth]).trace.take 15 :=
  ⟨by decide,
    (health_only_after_startup okEnv
      [.settled, .getHealth, .settled, .settled, .settled, .settled, .getHealth]).1 15
      (by decide)⟩

end Back
